import Mathlib

/-!
simple-dns: record index, resolution and reply assembly.

A shallow embedding of `simsam_dns.go`.  The program keeps a map from lookup
keys to resource records, filled once from a zone file, and answers each
question of a request from that map or, on a miss, through an upstream
resolver.

Conventions of the embedding

* Go strings are `String`, slices are `List` (a nil slice is `[]`), `uint16`
  type codes are `Nat`.
* `map[string][]dns.RR` is a function `String → Option (List RR)`: `none` is an
  absent key, so the two-valued lookup `records, found := m[key]` is a `match`.
* Functions of the Go standard library and of `github.com/miekg/dns` that the
  program calls are not part of the repository.  The pure ones the lookup key is
  built from (`strings.ToLower`, the table `dns.TypeToString`) and the effectful
  ones (`os.Open`, the zone parser, `dns.Id`, `Client.Exchange`) are parameters,
  so every theorem holds whatever they compute.  The message helpers
  `SetReply`, `SetRcode` and `SetQuestion` are transcribed from the library.
* The network is a state of type `σ` threaded through the handler together with
  the list of messages handed to `Client.Exchange`.
-/

namespace SimpleDNS

/-! ## Data model -/

/-- A resource record: the fields of `dns.RR_Header` and the record data. -/
structure RR where
  Name : String
  Rrtype : Nat
  Class : Nat
  Ttl : Nat
  Rdata : String
deriving DecidableEq

/-- A question of a request (`dns.Question`). -/
structure Question where
  Name : String
  Qtype : Nat
  Qclass : Nat
deriving DecidableEq

/-- The fields of `dns.Msg` the program reads or writes. -/
structure Msg where
  Id : Nat
  Response : Bool
  Opcode : Nat
  Authoritative : Bool
  RecursionDesired : Bool
  CheckingDisabled : Bool
  Rcode : Nat
  Questions : List Question
  Answer : List RR
deriving DecidableEq

/-- The value of `new(dns.Msg)`: every field zero. -/
def Msg.new : Msg :=
  { Id := 0, Response := false, Opcode := 0, Authoritative := false,
    RecursionDesired := false, CheckingDisabled := false, Rcode := 0,
    Questions := [], Answer := [] }

def OpcodeQuery : Nat := 0
def RcodeSuccess : Nat := 0
def RcodeServerFailure : Nat := 2
def ClassINET : Nat := 1

/-- The configuration (`Config`). -/
structure Config where
  ZoneFile : String
  Port : Int
  Forwarder : String
deriving DecidableEq

/-- The record index, `map[string][]dns.RR`. -/
abbrev Index := String → Option (List RR)

/-- The value of `make(map[string][]dns.RR)`. -/
def Index.empty : Index := fun _ => none

/-- The server (`Server`). -/
structure Server where
  config : Config
  records : Index

/-! ## Library functions taken as parameters -/

/-- The pure library functions the lookup key is built from: `strings.ToLower`
and the Go map `dns.TypeToString` (`none` where the map has no entry). -/
structure Lib where
  ToLower : String → String
  TypeToString : Nat → Option String

/-- The run of a `dns.ZoneParser` over a file: the records that successive calls
of `Next` return with `ok = true`, and what `Err` reports once `Next` has
returned `ok = false` (`none` at a clean end of file). -/
structure ZoneParser where
  pending : List RR
  err : Option String

/-- The file system and zone parser: `Open` is `os.Open` (the file is its
text), `NewZoneParser file origin name` is `dns.NewZoneParser`. -/
structure OS where
  Open : String → Except String String
  NewZoneParser : String → String → String → ZoneParser

/-- The upstream side of the network over a state `σ`: `Id` is `dns.Id`,
`Exchange` is `(*dns.Client).Exchange` without the round-trip time. -/
structure Net (σ : Type) where
  Id : σ → Nat × σ
  Exchange : σ → Msg → String → Except String Msg × σ

/-- The network as the handler sees it: the upstream state and the messages
handed to `Exchange` so far, each with the address it was sent to. -/
structure World (σ : Type) where
  state : σ
  sent : List (Msg × String)

/-! ## Message helpers of the library -/

/-- A transcription of `(*dns.Msg).SetReply`. -/
def Msg.SetReply (m request : Msg) : Msg :=
  let m := { m with Id := request.Id, Response := true, Opcode := request.Opcode }
  let m := if m.Opcode = OpcodeQuery then
      { m with RecursionDesired := request.RecursionDesired,
               CheckingDisabled := request.CheckingDisabled }
    else m
  let m := { m with Rcode := RcodeSuccess }
  match request.Questions with
  | [] => m
  | q :: _ => { m with Questions := [q] }

/-- A transcription of `(*dns.Msg).SetRcode`. -/
def Msg.SetRcode (m request : Msg) (rcode : Nat) : Msg :=
  { m.SetReply request with Rcode := rcode }

/-- A transcription of `(*dns.Msg).SetQuestion`, the fresh id given. -/
def Msg.SetQuestion (m : Msg) (id : Nat) (z : String) (t : Nat) : Msg :=
  { m with Id := id, RecursionDesired := true,
           Questions := [{ Name := z, Qtype := t, Qclass := ClassINET }] }

/-! ## The program -/

/-- The value of `dns.TypeToString[t]`: the entry, or the empty string where
the map has none. -/
def typeName (lib : Lib) (t : Nat) : String :=
  (lib.TypeToString t).getD ""

/-- The call `fmt.Sprintf("%s:%s", a, b)`. -/
def formatKey (a b : String) : String :=
  a ++ ":" ++ b

/-- The lookup key
`fmt.Sprintf("%s:%s", strings.ToLower(name), dns.TypeToString[t])`,
built by `loadZoneFile` and by `handleRequest`. -/
def lookupKey (lib : Lib) (name : String) (t : Nat) : String :=
  formatKey (lib.ToLower name) (typeName lib t)

/-- The key of a record, as `loadZoneFile` computes it. -/
def RR.key (lib : Lib) (rr : RR) : String :=
  lookupKey lib rr.Name rr.Rrtype

/-- The key of a question, as `handleRequest` computes it. -/
def Question.key (lib : Lib) (q : Question) : String :=
  lookupKey lib q.Name q.Qtype

/-- The statement `records[key] = append(records[key], rr)`. -/
def Index.put (idx : Index) (key : String) (rr : RR) : Index :=
  fun k => if k = key then some ((idx k).getD [] ++ [rr]) else idx k

/-- The body of the loop of `loadZoneFile` for one record. -/
def loadRecord (lib : Lib) (idx : Index) (rr : RR) : Index :=
  idx.put (rr.key lib) rr

/-- The loop of `loadZoneFile` over the records the parser yields. -/
def loadLoop (lib : Lib) (idx : Index) (rrs : List RR) : Index :=
  rrs.foldl (loadRecord lib) idx

/-- The method `loadZoneFile`: the index it leaves in the server and the error
it returns. -/
def loadZoneFile (lib : Lib) (os : OS) (server : Server) : Server × Option String :=
  match os.Open server.config.ZoneFile with
  | .error err => (server, some err)
  | .ok file =>
    let parser := os.NewZoneParser file "" server.config.ZoneFile
    let server := { server with records := loadLoop lib server.records parser.pending }
    match parser.err with
    | some err => (server, some err)
    | none => (server, none)

/-- The function `NewServer`. -/
def NewServer (lib : Lib) (os : OS) (serverConfig : Config) : Except String Server :=
  let dnsServer : Server := { config := serverConfig, records := Index.empty }
  match loadZoneFile lib os dnsServer with
  | (_, some err) => .error ("could not load zone file: " ++ err)
  | (dnsServer, none) => .ok dnsServer

/-- The message `forwardRequest` builds for a question: `SetQuestion` with the
name and type of the question, then `RecursionDesired = true`. -/
def forwardMsg (id : Nat) (q : Question) : Msg :=
  { (Msg.new.SetQuestion id q.Name q.Qtype) with RecursionDesired := true }

/-- The method `forwardRequest`. -/
def forwardRequest {σ : Type} (net : Net σ) (server : Server) (w : World σ)
    (q : Question) : Except String (List RR) × World σ :=
  let (id, s) := net.Id w.state
  let m := forwardMsg id q
  let (res, s) := net.Exchange s m server.config.Forwarder
  let w := { state := s, sent := w.sent ++ [(m, server.config.Forwarder)] }
  match res with
  | .error err => (.error err, w)
  | .ok response => (.ok response.Answer, w)

/-- The body of the loop of `handleRequest` for one question: the reply under
construction and the network before, and after. -/
def handleQuestion {σ : Type} (lib : Lib) (net : Net σ) (server : Server) (r : Msg)
    (st : Msg × World σ) (q : Question) : Msg × World σ :=
  let key := q.key lib
  match server.records key with
  | some records => ({ st.1 with Answer := st.1.Answer ++ records }, st.2)
  | none =>
    if server.config.Forwarder ≠ "" then
      match forwardRequest net server st.2 q with
      | (.error _, w) => (st.1.SetRcode r RcodeServerFailure, w)
      | (.ok answers, w) =>
        ({ st.1 with Authoritative := false, Answer := st.1.Answer ++ answers }, w)
    else st

/-- The method `handleRequest`: the message handed to `WriteMsg` and the network
afterwards. -/
def handleRequest {σ : Type} (lib : Lib) (net : Net σ) (server : Server)
    (w : World σ) (r : Msg) : Msg × World σ :=
  let m := Msg.new.SetReply r
  let m := { m with Authoritative := true }
  r.Questions.foldl (handleQuestion lib net server r) (m, w)

/-! ## Resolution outcomes

The specification describes the handler through the outcome of each question.
The definitions of this section follow its wording; the theorems compare them
with `handleRequest`. -/

/-- The resolution outcome of one question, as the specification names them. -/
inductive Outcome where
  | AuthoritativeHit (records : List RR)
  | ForwardedHit (records : List RR)
  | ForwardFailure (err : String)
deriving DecidableEq

/-- The records an outcome contributes to the answer section. -/
def Outcome.records : Outcome → List RR
  | .AuthoritativeHit records => records
  | .ForwardedHit records => records
  | .ForwardFailure _ => []

def Outcome.isAuthoritativeHit : Outcome → Bool
  | .AuthoritativeHit _ => true
  | _ => false

def Outcome.isForwardedHit : Outcome → Bool
  | .ForwardedHit _ => true
  | _ => false

def Outcome.isForwardFailure : Outcome → Bool
  | .ForwardFailure _ => true
  | _ => false

/-- The specification of the resolution engine, steps 1 to 5: a hit in the
index is an authoritative hit with the stored sequence; a miss with an upstream
configured is handed to the forwarder and is a forwarded hit or a forward
failure; a miss without upstream is an empty authoritative hit. -/
def Spec.resolve {σ : Type} (lib : Lib) (net : Net σ) (server : Server) (w : World σ)
    (q : Question) : Outcome × World σ :=
  match server.records (lookupKey lib q.Name q.Qtype) with
  | some records => (.AuthoritativeHit records, w)
  | none =>
    if server.config.Forwarder = "" then (.AuthoritativeHit [], w)
    else
      match forwardRequest net server w q with
      | (.ok records, w) => (.ForwardedHit records, w)
      | (.error err, w) => (.ForwardFailure err, w)

/-- The outcomes of the questions of a request, resolved one after the other in
question order. -/
def Spec.resolveAll {σ : Type} (lib : Lib) (net : Net σ) (server : Server) :
    World σ → List Question → List Outcome
  | _, [] => []
  | w, q :: qs =>
    (Spec.resolve lib net server w q).1 ::
      Spec.resolveAll lib net server (Spec.resolve lib net server w q).2 qs

/-! ## Concrete instances used in the examples -/

/-- Case folding of the letters A to Z, on which `strings.ToLower` agrees for
text without other letters. -/
def asciiToLower (s : String) : String :=
  String.mk (s.data.map Char.toLower)

/-- Entries of the table `dns.TypeToString` of the library.  The table has an
entry for the types the library implements; the codes 65280 to 65534, reserved
for private use, have none. -/
def typeTable : List (Nat × String) :=
  [(0, "None"), (1, "A"), (2, "NS"), (3, "MD"), (4, "MF"), (5, "CNAME"), (6, "SOA"),
   (7, "MB"), (8, "MG"), (9, "MR"), (10, "NULL"), (12, "PTR"), (13, "HINFO"),
   (14, "MINFO"), (15, "MX"), (16, "TXT"), (17, "RP"), (18, "AFSDB"), (19, "X25"),
   (20, "ISDN"), (21, "RT"), (23, "NSAP-PTR"), (24, "SIG"), (25, "KEY"), (26, "PX"),
   (27, "GPOS"), (28, "AAAA"), (29, "LOC"), (30, "NXT"), (31, "EID"), (32, "NIMLOC"),
   (33, "SRV"), (34, "ATMA"), (35, "NAPTR"), (36, "KX"), (37, "CERT"), (39, "DNAME"),
   (41, "OPT"), (42, "APL"), (43, "DS"), (44, "SSHFP"), (46, "RRSIG"), (47, "NSEC"),
   (48, "DNSKEY"), (49, "DHCID"), (50, "NSEC3"), (51, "NSEC3PARAM"), (52, "TLSA"),
   (53, "SMIMEA"), (55, "HIP"), (56, "NINFO"), (57, "RKEY"), (58, "TALINK"),
   (59, "CDS"), (60, "CDNSKEY"), (61, "OPENPGPKEY"), (62, "CSYNC"), (63, "ZONEMD"),
   (64, "SVCB"), (65, "HTTPS"), (99, "SPF"), (100, "UINFO"), (101, "UID"),
   (102, "GID"), (103, "UNSPEC"), (104, "NID"), (105, "L32"), (106, "L64"),
   (107, "LP"), (108, "EUI48"), (109, "EUI64"), (249, "TKEY"), (250, "TSIG"),
   (251, "IXFR"), (252, "AXFR"), (253, "MAILB"), (254, "MAILA"), (255, "ANY"),
   (256, "URI"), (257, "CAA"), (258, "AVC"), (260, "AMTRELAY"), (32768, "TA"),
   (32769, "DLV"), (65535, "Reserved")]

/-- The library with ASCII case folding and the table above. -/
def stdLib : Lib :=
  { ToLower := asciiToLower, TypeToString := fun t => typeTable.lookup t }

/-- An upstream that answers from a script: each exchange consumes the next
entry, and an exhausted script is a timeout. -/
def scriptedNet : Net (List (Except String (List RR))) :=
  { Id := fun s => (0, s),
    Exchange := fun s m _ =>
      match s with
      | [] => (.error "i/o timeout", [])
      | .ok answer :: rest =>
        (.ok { (Msg.new.SetReply m) with Answer := answer }, rest)
      | .error err :: rest => (.error err, rest) }

/-- A network on which nothing has been sent yet. -/
def World.start {σ : Type} (s : σ) : World σ :=
  { state := s, sent := [] }

def rrHostA : RR :=
  { Name := "host.test.", Rrtype := 1, Class := 1, Ttl := 300, Rdata := "10.0.0.1" }

def rrHostA2 : RR :=
  { Name := "Host.Test.", Rrtype := 1, Class := 1, Ttl := 300, Rdata := "10.0.0.2" }

def rrHostMX : RR :=
  { Name := "host.test.", Rrtype := 15, Class := 1, Ttl := 300, Rdata := "10 mail.test." }

def rrPrivate : RR :=
  { Name := "host.test.", Rrtype := 65280, Class := 1, Ttl := 300, Rdata := "0a000001" }

/-- A request with the given questions. -/
def request (qs : List Question) : Msg :=
  { Msg.new with Id := 7, RecursionDesired := true, Questions := qs }

def qHostA : Question := { Name := "Host.Test.", Qtype := 1, Qclass := 1 }

def qHostMX : Question := { Name := "host.test.", Qtype := 15, Qclass := 1 }

def qPrivate : Question := { Name := "host.test.", Qtype := 65281, Qclass := 1 }

/-- A configuration without upstream. -/
def cfgLocal : Config := { ZoneFile := "./zone.txt", Port := 53, Forwarder := "" }

/-- A configuration with an upstream. -/
def cfgForward : Config := { ZoneFile := "./zone.txt", Port := 53, Forwarder := "8.8.8.8:53" }

def qHostAAAA : Question := { Name := "host.test.", Qtype := 28, Qclass := 1 }

def rrUpstreamAAAA : RR :=
  { Name := "host.test.", Rrtype := 28, Class := 1, Ttl := 60, Rdata := "2001:db8::1" }

/-- A zone with two address records of one owner, spelled in two ways, and a
mail exchanger between them. -/
def zoneHost : List RR := [rrHostA, rrHostMX, rrHostA2]

/-- The server that has loaded `zoneHost`. -/
def srvHost (cfg : Config) : Server :=
  { config := cfg, records := loadLoop stdLib Index.empty zoneHost }

/-- The server that has loaded one record of the private-use type 65280. -/
def srvPrivate : Server :=
  { config := cfgLocal, records := loadLoop stdLib Index.empty [rrPrivate] }

/-- A file system with one file, whose parse is given. -/
def oneFileOS (path : String) (run : ZoneParser) : OS :=
  { Open := fun p =>
      if p = path then .ok path else .error ("open " ++ p ++ ": no such file or directory"),
    NewZoneParser := fun _ _ _ => run }

/-! ## The index after loading -/

theorem Index.put_same (idx : Index) (key : String) (rr : RR) :
    idx.put key rr key = some ((idx key).getD [] ++ [rr]) := by
  simp [Index.put]

theorem Index.put_other (idx : Index) (key : String) (rr : RR) (k : String) (h : k ≠ key) :
    idx.put key rr k = idx k := by
  simp [Index.put, h]

/-- The sequence stored under a key after the loop of `loadZoneFile`: the records
with that key, in load order, appended to what was there; the key is left as it
was when no record has it. -/
theorem loadLoop_apply (lib : Lib) (rrs : List RR) (idx : Index) (k : String) :
    loadLoop lib idx rrs k =
      if rrs.filter (fun x => decide (x.key lib = k)) = [] then idx k
      else some ((idx k).getD [] ++ rrs.filter (fun x => decide (x.key lib = k))) := by
  induction rrs generalizing idx with
  | nil => simp [loadLoop]
  | cons r rs ih =>
    have hstep : loadLoop lib idx (r :: rs) = loadLoop lib (loadRecord lib idx r) rs := rfl
    rw [hstep, ih]
    by_cases hk : r.key lib = k
    · subst hk
      by_cases hrs : rs.filter (fun x => decide (x.key lib = r.key lib)) = []
      · simp [hrs, loadRecord, Index.put_same]
      · simp [hrs, loadRecord, Index.put_same]
    · have hk2 : k ≠ r.key lib := fun h => hk h.symm
      simp [hk, loadRecord, Index.put_other _ _ _ _ hk2]

/-- From the empty index, a key is mapped to the records that have it, in load
order, and is absent when there is none. -/
theorem loadLoop_empty_apply (lib : Lib) (rrs : List RR) (k : String) :
    loadLoop lib Index.empty rrs k =
      if rrs.filter (fun x => decide (x.key lib = k)) = [] then none
      else some (rrs.filter (fun x => decide (x.key lib = k))) := by
  rw [loadLoop_apply]
  simp [Index.empty]

/-! ## One step of the handler against the outcome of its question -/

theorem Msg.SetRcode_Answer (m r : Msg) (c : Nat) : (m.SetRcode r c).Answer = m.Answer := by
  unfold Msg.SetRcode Msg.SetReply
  dsimp only
  split <;> split <;> rfl

theorem Msg.SetRcode_Authoritative (m r : Msg) (c : Nat) :
    (m.SetRcode r c).Authoritative = m.Authoritative := by
  unfold Msg.SetRcode Msg.SetReply
  dsimp only
  split <;> split <;> rfl

theorem Msg.SetRcode_Rcode (m r : Msg) (c : Nat) : (m.SetRcode r c).Rcode = c := rfl

theorem Msg.SetReply_Answer (m r : Msg) : (m.SetReply r).Answer = m.Answer := by
  unfold Msg.SetReply
  dsimp only
  split <;> split <;> rfl

theorem Msg.SetReply_Rcode (m r : Msg) : (m.SetReply r).Rcode = RcodeSuccess := by
  unfold Msg.SetReply
  dsimp only
  split <;> rfl

theorem handleQuestion_world {σ : Type} (lib : Lib) (net : Net σ) (server : Server) (r : Msg)
    (st : Msg × World σ) (q : Question) :
    (handleQuestion lib net server r st q).2 = (Spec.resolve lib net server st.2 q).2 := by
  unfold handleQuestion Spec.resolve Question.key
  dsimp only
  split
  · rfl
  · by_cases hf : server.config.Forwarder = ""
    · simp [hf]
    · simp only [hf, ne_eq, not_false_eq_true, if_true, if_false]
      split <;> simp_all

theorem handleQuestion_Answer {σ : Type} (lib : Lib) (net : Net σ) (server : Server) (r : Msg)
    (st : Msg × World σ) (q : Question) :
    (handleQuestion lib net server r st q).1.Answer =
      st.1.Answer ++ (Spec.resolve lib net server st.2 q).1.records := by
  unfold handleQuestion Spec.resolve Question.key
  dsimp only
  split
  · rfl
  · by_cases hf : server.config.Forwarder = ""
    · simp [hf, Outcome.records]
    · simp only [hf, ne_eq, not_false_eq_true, if_true, if_false]
      split <;> simp_all [Outcome.records, Msg.SetRcode_Answer]

theorem handleQuestion_Rcode {σ : Type} (lib : Lib) (net : Net σ) (server : Server) (r : Msg)
    (st : Msg × World σ) (q : Question) :
    (handleQuestion lib net server r st q).1.Rcode =
      if (Spec.resolve lib net server st.2 q).1.isForwardFailure then RcodeServerFailure
      else st.1.Rcode := by
  unfold handleQuestion Spec.resolve Question.key
  dsimp only
  split
  · rfl
  · by_cases hf : server.config.Forwarder = ""
    · simp [hf, Outcome.isForwardFailure]
    · simp only [hf, ne_eq, not_false_eq_true, if_true, if_false]
      split <;> simp_all [Outcome.isForwardFailure, Msg.SetRcode_Rcode]

theorem handleQuestion_Authoritative {σ : Type} (lib : Lib) (net : Net σ) (server : Server)
    (r : Msg) (st : Msg × World σ) (q : Question) :
    (handleQuestion lib net server r st q).1.Authoritative =
      if (Spec.resolve lib net server st.2 q).1.isForwardedHit then false
      else st.1.Authoritative := by
  unfold handleQuestion Spec.resolve Question.key
  dsimp only
  split
  · rfl
  · by_cases hf : server.config.Forwarder = ""
    · simp [hf, Outcome.isForwardedHit]
    · simp only [hf, ne_eq, not_false_eq_true, if_true, if_false]
      split <;> simp_all [Outcome.isForwardedHit, Msg.SetRcode_Authoritative]

/-! ## The whole loop against the outcomes of the questions -/

theorem foldl_handleQuestion_Answer {σ : Type} (lib : Lib) (net : Net σ) (server : Server)
    (r : Msg) (qs : List Question) (st : Msg × World σ) :
    (qs.foldl (handleQuestion lib net server r) st).1.Answer =
      st.1.Answer ++
        ((Spec.resolveAll lib net server st.2 qs).map Outcome.records).flatten := by
  induction qs generalizing st with
  | nil => simp [Spec.resolveAll]
  | cons q qs ih =>
    rw [List.foldl_cons, ih, handleQuestion_Answer, handleQuestion_world]
    simp [Spec.resolveAll, List.append_assoc]

theorem foldl_handleQuestion_Rcode {σ : Type} (lib : Lib) (net : Net σ) (server : Server)
    (r : Msg) (qs : List Question) (st : Msg × World σ) :
    (qs.foldl (handleQuestion lib net server r) st).1.Rcode =
      if (Spec.resolveAll lib net server st.2 qs).any Outcome.isForwardFailure
      then RcodeServerFailure else st.1.Rcode := by
  induction qs generalizing st with
  | nil => simp [Spec.resolveAll]
  | cons q qs ih =>
    rw [List.foldl_cons, ih, handleQuestion_Rcode, handleQuestion_world]
    simp only [Spec.resolveAll, List.any_cons]
    by_cases h1 : (Spec.resolve lib net server st.2 q).1.isForwardFailure = true <;>
      by_cases h2 : (Spec.resolveAll lib net server
        (Spec.resolve lib net server st.2 q).2 qs).any Outcome.isForwardFailure = true <;>
      simp [h1, h2]

theorem foldl_handleQuestion_Authoritative {σ : Type} (lib : Lib) (net : Net σ)
    (server : Server) (r : Msg) (qs : List Question) (st : Msg × World σ) :
    (qs.foldl (handleQuestion lib net server r) st).1.Authoritative =
      if (Spec.resolveAll lib net server st.2 qs).any Outcome.isForwardedHit
      then false else st.1.Authoritative := by
  induction qs generalizing st with
  | nil => simp [Spec.resolveAll]
  | cons q qs ih =>
    rw [List.foldl_cons, ih, handleQuestion_Authoritative, handleQuestion_world]
    simp only [Spec.resolveAll, List.any_cons]
    by_cases h1 : (Spec.resolve lib net server st.2 q).1.isForwardedHit = true <;>
      by_cases h2 : (Spec.resolveAll lib net server
        (Spec.resolve lib net server st.2 q).2 qs).any Outcome.isForwardedHit = true <;>
      simp [h1, h2]

/-! ## Claims on requests with any number of questions -/

/-- C5: the status code of the reply is server-failure exactly when the
forwarder failed for at least one question of the request, wherever that
question stands among the others, and it is success otherwise. -/
theorem C5_rcode_server_failure_iff_forward_failure {σ : Type} (lib : Lib) (net : Net σ)
    (server : Server) (w : World σ) (r : Msg) :
    ((handleRequest lib net server w r).1.Rcode = RcodeServerFailure ↔
        ∃ o ∈ Spec.resolveAll lib net server w r.Questions, o.isForwardFailure = true) ∧
    ((handleRequest lib net server w r).1.Rcode = RcodeSuccess ↔
        ∀ o ∈ Spec.resolveAll lib net server w r.Questions, o.isForwardFailure = false) := by
  have h := foldl_handleQuestion_Rcode lib net server r r.Questions
    ({ Msg.new.SetReply r with Authoritative := true }, w)
  have h0 : ({ Msg.new.SetReply r with Authoritative := true } : Msg).Rcode = RcodeSuccess :=
    Msg.SetReply_Rcode _ _
  have hr : (handleRequest lib net server w r).1.Rcode =
      if (Spec.resolveAll lib net server w r.Questions).any Outcome.isForwardFailure
      then RcodeServerFailure else RcodeSuccess := by
    rw [← h0]; exact h
  rw [hr]
  by_cases hany : (Spec.resolveAll lib net server w r.Questions).any Outcome.isForwardFailure = true
  · have hex := List.any_eq_true.mp hany
    rw [if_pos hany]
    refine ⟨⟨fun _ => hex, fun _ => rfl⟩, ⟨fun h2 => absurd h2 (by decide), fun h2 => ?_⟩⟩
    obtain ⟨o, ho, hf⟩ := hex
    rw [h2 o ho] at hf
    exact absurd hf (by decide)
  · have hnone : ∀ o ∈ Spec.resolveAll lib net server w r.Questions,
        o.isForwardFailure = false := by
      intro o ho
      cases hf : o.isForwardFailure
      · rfl
      · exact absurd (List.any_eq_true.mpr ⟨o, ho, hf⟩) hany
    rw [if_neg hany]
    refine ⟨⟨fun h2 => absurd h2 (by decide), fun ⟨o, ho, hf⟩ => ?_⟩, ⟨fun _ => hnone, fun _ => rfl⟩⟩
    rw [hnone o ho] at hf
    exact absurd hf (by decide)

/-- C6, as the code has it: the authoritative flag of the reply is false
exactly when at least one question of the request was answered by a successful
forward; a question whose forward failed leaves the flag as it was, so the flag
is true when no question is a forwarded hit. -/
theorem C6_authoritative_false_iff_forwarded_hit {σ : Type} (lib : Lib) (net : Net σ)
    (server : Server) (w : World σ) (r : Msg) :
    ((handleRequest lib net server w r).1.Authoritative = false ↔
        ∃ o ∈ Spec.resolveAll lib net server w r.Questions, o.isForwardedHit = true) ∧
    ((handleRequest lib net server w r).1.Authoritative = true ↔
        ∀ o ∈ Spec.resolveAll lib net server w r.Questions, o.isForwardedHit = false) := by
  have h := foldl_handleQuestion_Authoritative lib net server r r.Questions
    ({ Msg.new.SetReply r with Authoritative := true }, w)
  have hr : (handleRequest lib net server w r).1.Authoritative =
      if (Spec.resolveAll lib net server w r.Questions).any Outcome.isForwardedHit
      then false else true := h
  rw [hr]
  by_cases hany : (Spec.resolveAll lib net server w r.Questions).any Outcome.isForwardedHit = true
  · have hex := List.any_eq_true.mp hany
    rw [if_pos hany]
    refine ⟨⟨fun _ => hex, fun _ => rfl⟩, ⟨fun h2 => absurd h2 (by decide), fun h2 => ?_⟩⟩
    obtain ⟨o, ho, hf⟩ := hex
    rw [h2 o ho] at hf
    exact absurd hf (by decide)
  · have hnone : ∀ o ∈ Spec.resolveAll lib net server w r.Questions,
        o.isForwardedHit = false := by
      intro o ho
      cases hf : o.isForwardedHit
      · rfl
      · exact absurd (List.any_eq_true.mpr ⟨o, ho, hf⟩) hany
    rw [if_neg hany]
    refine ⟨⟨fun h2 => absurd h2 (by decide), fun ⟨o, ho, hf⟩ => ?_⟩, ⟨fun _ => hnone, fun _ => rfl⟩⟩
    rw [hnone o ho] at hf
    exact absurd hf (by decide)

/-- C7: the answer section of the reply is the concatenation, in question
order, of the records of the outcome of each question: the stored sequence for
a hit in the index, the answer list of the upstream for a successful forward,
nothing for a miss without upstream and for a failed forward. -/
theorem C7_answer_is_concatenation_of_outcomes {σ : Type} (lib : Lib) (net : Net σ)
    (server : Server) (w : World σ) (r : Msg) :
    (handleRequest lib net server w r).1.Answer =
      ((Spec.resolveAll lib net server w r.Questions).map Outcome.records).flatten := by
  have h := foldl_handleQuestion_Answer lib net server r r.Questions
    ({ Msg.new.SetReply r with Authoritative := true }, w)
  have h0 : ({ Msg.new.SetReply r with Authoritative := true } : Msg).Answer = [] := by
    show (Msg.new.SetReply r).Answer = []
    rw [Msg.SetReply_Answer]; rfl
  rw [h0] at h
  simpa using h

/-! ## The forwarder -/

theorem forwardRequest_eq {σ : Type} (net : Net σ) (server : Server) (w : World σ)
    (q : Question) :
    forwardRequest net server w q =
      ((match (net.Exchange (net.Id w.state).2 (forwardMsg (net.Id w.state).1 q)
            server.config.Forwarder).1 with
        | .error err => .error err
        | .ok response => .ok response.Answer),
       { state := (net.Exchange (net.Id w.state).2 (forwardMsg (net.Id w.state).1 q)
            server.config.Forwarder).2,
         sent := w.sent ++ [(forwardMsg (net.Id w.state).1 q, server.config.Forwarder)] }) := by
  unfold forwardRequest
  dsimp only
  split <;> simp_all

/-- The handler on a request with one question is one step of its loop. -/
theorem handleRequest_single {σ : Type} (lib : Lib) (net : Net σ) (server : Server)
    (w : World σ) (r : Msg) (q : Question) (hq : r.Questions = [q]) :
    handleRequest lib net server w r =
      handleQuestion lib net server r ({ Msg.new.SetReply r with Authoritative := true }, w) q := by
  unfold handleRequest
  rw [hq]
  rfl

/-! ## Claims on a request with one question -/

/-- C3: when the key of the only question is absent from the index and the
upstream address is the empty string, the handler hands nothing to the
forwarder and writes a reply that is authoritative, has no answer record and
has the success status. -/
theorem C3_miss_without_upstream {σ : Type} (lib : Lib) (net : Net σ) (server : Server)
    (w : World σ) (r : Msg) (q : Question) (hq : r.Questions = [q])
    (hmiss : server.records (q.key lib) = none) (hfwd : server.config.Forwarder = "") :
    (handleRequest lib net server w r).2 = w ∧
    (handleRequest lib net server w r).1.Authoritative = true ∧
    (handleRequest lib net server w r).1.Answer = [] ∧
    (handleRequest lib net server w r).1.Rcode = RcodeSuccess := by
  rw [handleRequest_single lib net server w r q hq]
  have hstep : handleQuestion lib net server r
      ({ Msg.new.SetReply r with Authoritative := true }, w) q =
      ({ Msg.new.SetReply r with Authoritative := true }, w) := by
    unfold handleQuestion
    simp [hmiss, hfwd]
  rw [hstep]
  refine ⟨rfl, rfl, ?_, ?_⟩
  · show (Msg.new.SetReply r).Answer = []
    rw [Msg.SetReply_Answer]; rfl
  · exact Msg.SetReply_Rcode _ _

theorem C3_miss_without_upstream_witness :
    (srvHost cfgLocal).records (qHostAAAA.key stdLib) = none ∧
    (handleRequest stdLib scriptedNet (srvHost cfgLocal) (World.start [])
        (request [qHostAAAA])).2 = World.start [] ∧
    (handleRequest stdLib scriptedNet (srvHost cfgLocal) (World.start [])
        (request [qHostAAAA])).1.Authoritative = true ∧
    (handleRequest stdLib scriptedNet (srvHost cfgLocal) (World.start [])
        (request [qHostAAAA])).1.Answer = [] ∧
    (handleRequest stdLib scriptedNet (srvHost cfgLocal) (World.start [])
        (request [qHostAAAA])).1.Rcode = RcodeSuccess :=
  ⟨by decide,
   C3_miss_without_upstream stdLib scriptedNet (srvHost cfgLocal) (World.start [])
     (request [qHostAAAA]) qHostAAAA rfl (by decide) rfl⟩

/-- C4: when the key of the only question is absent from the index, an upstream
is configured and the exchange with it succeeds, the reply is not
authoritative, has the success status, and its answer section is the answer
section of the response of the upstream, unchanged; one message, the one built
for the question, was handed to the upstream. -/
theorem C4_miss_forwarded_verbatim {σ : Type} (lib : Lib) (net : Net σ) (server : Server)
    (w : World σ) (r : Msg) (q : Question) (response : Msg) (hq : r.Questions = [q])
    (hmiss : server.records (q.key lib) = none) (hfwd : server.config.Forwarder ≠ "")
    (hex : (net.Exchange (net.Id w.state).2 (forwardMsg (net.Id w.state).1 q)
        server.config.Forwarder).1 = .ok response) :
    (handleRequest lib net server w r).1.Authoritative = false ∧
    (handleRequest lib net server w r).1.Rcode = RcodeSuccess ∧
    (handleRequest lib net server w r).1.Answer = response.Answer ∧
    (handleRequest lib net server w r).2.sent =
      w.sent ++ [(forwardMsg (net.Id w.state).1 q, server.config.Forwarder)] := by
  rw [handleRequest_single lib net server w r q hq]
  have hstep : handleQuestion lib net server r
      ({ Msg.new.SetReply r with Authoritative := true }, w) q =
      ({ Msg.new.SetReply r with Authoritative := false,
                                 Answer := (Msg.new.SetReply r).Answer ++ response.Answer },
       { state := (net.Exchange (net.Id w.state).2 (forwardMsg (net.Id w.state).1 q)
            server.config.Forwarder).2,
         sent := w.sent ++ [(forwardMsg (net.Id w.state).1 q, server.config.Forwarder)] }) := by
    unfold handleQuestion
    simp [hmiss, hfwd, forwardRequest_eq, hex]
  rw [hstep]
  refine ⟨rfl, ?_, ?_, rfl⟩
  · exact Msg.SetReply_Rcode _ _
  · show (Msg.new.SetReply r).Answer ++ response.Answer = response.Answer
    rw [Msg.SetReply_Answer]; rfl

theorem C4_miss_forwarded_verbatim_witness :
    (srvHost cfgForward).records (qHostAAAA.key stdLib) = none ∧
    (handleRequest stdLib scriptedNet (srvHost cfgForward) (World.start [.ok [rrUpstreamAAAA]])
        (request [qHostAAAA])).1.Authoritative = false ∧
    (handleRequest stdLib scriptedNet (srvHost cfgForward) (World.start [.ok [rrUpstreamAAAA]])
        (request [qHostAAAA])).1.Rcode = RcodeSuccess ∧
    (handleRequest stdLib scriptedNet (srvHost cfgForward) (World.start [.ok [rrUpstreamAAAA]])
        (request [qHostAAAA])).1.Answer = [rrUpstreamAAAA] ∧
    (handleRequest stdLib scriptedNet (srvHost cfgForward) (World.start [.ok [rrUpstreamAAAA]])
        (request [qHostAAAA])).2.sent = [(forwardMsg 0 qHostAAAA, "8.8.8.8:53")] :=
  ⟨by decide,
   C4_miss_forwarded_verbatim stdLib scriptedNet (srvHost cfgForward)
     (World.start [.ok [rrUpstreamAAAA]]) (request [qHostAAAA]) qHostAAAA
     { (Msg.new.SetReply (forwardMsg 0 qHostAAAA)) with Answer := [rrUpstreamAAAA] }
     rfl (by decide) (by decide) rfl⟩

/-- The key of a question with the type of a record and a name that lowercases
to the same string is the key of the record. -/
theorem Question.key_eq_of_same_name_type (lib : Lib) (q : Question) (r : RR)
    (hname : lib.ToLower q.Name = lib.ToLower r.Name) (htype : q.Qtype = r.Rrtype) :
    q.key lib = r.key lib := by
  unfold Question.key RR.key lookupKey
  rw [hname, htype]

/-- C1: on a server whose index was loaded from a sequence of records, a request
with one question whose name lowercases to the same string as the owner name of
a loaded record and whose type is the type of that record is answered from the
index, with nothing handed to the forwarder; the answer section is the list of
the loaded records that have the key of the question, in load order, and it
holds that record and every loaded record with the same lowercased owner name
and the same type. -/
theorem C1_local_hit_returns_full_set {σ : Type} (lib : Lib) (net : Net σ) (server : Server)
    (rrs : List RR) (rr : RR) (w : World σ) (r : Msg) (q : Question)
    (hload : server.records = loadLoop lib Index.empty rrs)
    (hrr : rr ∈ rrs) (hq : r.Questions = [q])
    (hname : lib.ToLower q.Name = lib.ToLower rr.Name) (htype : q.Qtype = rr.Rrtype) :
    (handleRequest lib net server w r).2 = w ∧
    (handleRequest lib net server w r).1.Answer =
      rrs.filter (fun x => decide (x.key lib = q.key lib)) ∧
    rr ∈ (handleRequest lib net server w r).1.Answer ∧
    (∀ x ∈ rrs, lib.ToLower x.Name = lib.ToLower rr.Name → x.Rrtype = rr.Rrtype →
      x ∈ (handleRequest lib net server w r).1.Answer) ∧
    (handleRequest lib net server w r).1.Authoritative = true ∧
    (handleRequest lib net server w r).1.Rcode = RcodeSuccess := by
  have hkey : q.key lib = rr.key lib := Question.key_eq_of_same_name_type lib q rr hname htype
  have hmem : rr ∈ rrs.filter (fun x => decide (x.key lib = q.key lib)) := by
    simp [List.mem_filter, hrr, hkey]
  have hne : rrs.filter (fun x => decide (x.key lib = q.key lib)) ≠ [] :=
    List.ne_nil_of_mem hmem
  have hfound : server.records (q.key lib) =
      some (rrs.filter (fun x => decide (x.key lib = q.key lib))) := by
    rw [hload, loadLoop_empty_apply, if_neg hne]
  have hstep : handleQuestion lib net server r
      ({ Msg.new.SetReply r with Authoritative := true }, w) q =
      ({ Msg.new.SetReply r with
          Authoritative := true,
          Answer := (Msg.new.SetReply r).Answer ++
            rrs.filter (fun x => decide (x.key lib = q.key lib)) }, w) := by
    unfold handleQuestion
    simp [hfound]
  have hans : (handleRequest lib net server w r).1.Answer =
      rrs.filter (fun x => decide (x.key lib = q.key lib)) := by
    rw [handleRequest_single lib net server w r q hq, hstep]
    show (Msg.new.SetReply r).Answer ++ _ = _
    rw [Msg.SetReply_Answer]; rfl
  refine ⟨?_, hans, ?_, ?_, ?_, ?_⟩
  · rw [handleRequest_single lib net server w r q hq, hstep]
  · rw [hans]; exact hmem
  · intro x hx hxn hxt
    rw [hans]
    have hxk : x.key lib = q.key lib := by
      rw [hkey]; unfold RR.key lookupKey; rw [hxn, hxt]
    simp [List.mem_filter, hx, hxk]
  · rw [handleRequest_single lib net server w r q hq, hstep]
  · rw [handleRequest_single lib net server w r q hq, hstep]
    exact Msg.SetReply_Rcode _ _

theorem C1_local_hit_returns_full_set_witness :
    rrHostA2 ∈ zoneHost ∧
    stdLib.ToLower qHostA.Name = stdLib.ToLower rrHostA2.Name ∧
    (handleRequest stdLib scriptedNet (srvHost cfgForward) (World.start [])
        (request [qHostA])).2 = World.start [] ∧
    (handleRequest stdLib scriptedNet (srvHost cfgForward) (World.start [])
        (request [qHostA])).1.Answer = [rrHostA, rrHostA2] := by
  have h := C1_local_hit_returns_full_set stdLib scriptedNet (srvHost cfgForward) zoneHost
    rrHostA2 (World.start []) (request [qHostA]) qHostA rfl (by decide) rfl (by decide) rfl
  exact ⟨by decide, by decide, h.1, h.2.1.trans (by decide)⟩

/-! ## The lookup key -/

theorem formatKey_data (a b : String) : (formatKey a b).data = a.data ++ ':' :: b.data := by
  unfold formatKey
  simp [String.data_append]

/-- Two lists split at a separator that occurs in neither tail are split alike. -/
theorem append_sep_inj {α : Type} (c : α) :
    ∀ (a b t1 t2 : List α), c ∉ t1 → c ∉ t2 → a ++ c :: t1 = b ++ c :: t2 → a = b ∧ t1 = t2
  | [], [], t1, t2, _, _, h => ⟨rfl, by simpa using h⟩
  | [], y :: b, t1, t2, h1, _, h => by
    simp only [List.nil_append, List.cons_append, List.cons.injEq] at h
    exact absurd (h.2 ▸ (by simp : c ∈ b ++ c :: t2)) h1
  | x :: a, [], t1, t2, _, h2, h => by
    simp only [List.nil_append, List.cons_append, List.cons.injEq] at h
    exact absurd (h.2 ▸ (by simp : c ∈ a ++ c :: t1)) h2
  | x :: a, y :: b, t1, t2, h1, h2, h => by
    simp only [List.cons_append, List.cons.injEq] at h
    obtain ⟨hab, ht⟩ := append_sep_inj c a b t1 t2 h1 h2 h.2
    exact ⟨by rw [h.1, hab], ht⟩

theorem formatKey_inj (a b t1 t2 : String) (h1 : ':' ∉ t1.data) (h2 : ':' ∉ t2.data)
    (h : formatKey a t1 = formatKey b t2) : a = b ∧ t1 = t2 := by
  have hd : (formatKey a t1).data = (formatKey b t2).data := by rw [h]
  rw [formatKey_data, formatKey_data] at hd
  obtain ⟨hab, ht⟩ := append_sep_inj ':' a.data b.data t1.data t2.data h1 h2 hd
  exact ⟨String.ext hab, String.ext ht⟩

/-- Keys built from the same name and two different type names differ. -/
theorem lookupKey_ne_of_typeName_ne (lib : Lib) (name : String) (t1 t2 : Nat)
    (h : typeName lib t1 ≠ typeName lib t2) : lookupKey lib name t1 ≠ lookupKey lib name t2 := by
  intro hk
  have hd : (lookupKey lib name t1).data = (lookupKey lib name t2).data := by rw [hk]
  unfold lookupKey at hd
  rw [formatKey_data, formatKey_data] at hd
  have ht := List.append_cancel_left hd
  simp only [List.cons.injEq, true_and] at ht
  exact h (String.ext ht)

/-- C10: the lookup key is injective on pairs of a lowercased name and a type
name without colon, whether or not the names hold colons; so, when the names of
the types involved hold no colon, every record found under the key of a
question has an owner name that lowercases to the same string as the name of
the question, and the same type name. -/
theorem C10_lookup_key_injective (lib : Lib) (n1 n2 t1 t2 : String)
    (h1 : ':' ∉ t1.data) (h2 : ':' ∉ t2.data)
    (h : formatKey (lib.ToLower n1) t1 = formatKey (lib.ToLower n2) t2) :
    (lib.ToLower n1 = lib.ToLower n2 ∧ t1 = t2) ∧
    (∀ (rrs : List RR) (q : Question) (hit : List RR),
      n1 = q.Name → t1 = typeName lib q.Qtype →
      (∀ x ∈ rrs, ':' ∉ (typeName lib x.Rrtype).data) →
      loadLoop lib Index.empty rrs (q.key lib) = some hit →
      ∀ x ∈ hit, lib.ToLower x.Name = lib.ToLower q.Name ∧
        typeName lib x.Rrtype = typeName lib q.Qtype) := by
  refine ⟨formatKey_inj _ _ _ _ h1 h2 h, ?_⟩
  intro rrs q hit hn ht hrrs hfound x hx
  rw [loadLoop_empty_apply] at hfound
  split at hfound
  · exact absurd hfound (by simp)
  · simp only [Option.some.injEq] at hfound
    rw [← hfound, List.mem_filter] at hx
    have hk : x.key lib = q.key lib := by simpa using hx.2
    unfold RR.key Question.key lookupKey at hk
    exact formatKey_inj _ _ _ _ (hrrs x hx.1) (ht ▸ h1) hk

theorem C10_lookup_key_injective_witness :
    ':' ∉ "A".data ∧
    formatKey (stdLib.ToLower "Host.Test.") "A" = formatKey (stdLib.ToLower "host.test.") "A" ∧
    stdLib.ToLower "Host.Test." = stdLib.ToLower "host.test." ∧
    (∀ x ∈ [rrHostA, rrHostA2], stdLib.ToLower x.Name = stdLib.ToLower qHostA.Name ∧
        typeName stdLib x.Rrtype = typeName stdLib qHostA.Qtype) := by
  have h := C10_lookup_key_injective stdLib "Host.Test." "host.test." "A" "A"
    (by decide) (by decide) (by decide)
  exact ⟨by decide, by decide, h.1.1,
    h.2 zoneHost qHostA [rrHostA, rrHostA2] rfl (by decide) (by decide) (by decide)⟩

/-! ## The index invariant and start-up -/

/-- C8: after the loop of `loadZoneFile` has run from the empty index over any
sequence of records, every key of the index maps to a non-empty sequence, and a
key is in the index exactly when a loaded record has it; loading one more record
is one put, and a put into an index without empty sequence leaves none, stores
under its key the old sequence with the record appended, and leaves every other
key as it was. -/
theorem C8_index_entries_non_empty (lib : Lib) (rrs : List RR) :
    (∀ k rs, loadLoop lib Index.empty rrs k = some rs → rs ≠ []) ∧
    (∀ k, (loadLoop lib Index.empty rrs k).isSome = true ↔ ∃ x ∈ rrs, x.key lib = k) ∧
    (∀ rr, loadLoop lib Index.empty (rrs ++ [rr]) =
      (loadLoop lib Index.empty rrs).put (rr.key lib) rr) ∧
    (∀ (idx : Index) (key : String) (rr : RR), (∀ k rs, idx k = some rs → rs ≠ []) →
      (∀ k rs, idx.put key rr k = some rs → rs ≠ []) ∧
      idx.put key rr key = some ((idx key).getD [] ++ [rr]) ∧
      (∀ k, k ≠ key → idx.put key rr k = idx k)) := by
  refine ⟨?_, ?_, ?_, ?_⟩
  · intro k rs h
    rw [loadLoop_empty_apply] at h
    split at h
    · exact absurd h (by simp)
    · rename_i hne
      simp only [Option.some.injEq] at h
      rw [← h]; exact hne
  · intro k
    rw [loadLoop_empty_apply]
    constructor
    · intro h
      split at h
      · exact absurd h (by simp)
      · rename_i hne
        obtain ⟨x, hx⟩ := List.exists_mem_of_ne_nil _ hne
        rw [List.mem_filter] at hx
        exact ⟨x, hx.1, by simpa using hx.2⟩
    · rintro ⟨x, hx, hk⟩
      have hmem : x ∈ rrs.filter (fun y => decide (y.key lib = k)) := by
        simp [List.mem_filter, hx, hk]
      rw [if_neg (List.ne_nil_of_mem hmem)]
      rfl
  · intro rr
    unfold loadLoop
    rw [List.foldl_append]
    rfl
  · intro idx key rr hinv
    refine ⟨?_, Index.put_same idx key rr, fun k hk => Index.put_other idx key rr k hk⟩
    intro k rs h
    by_cases hk : k = key
    · subst hk
      rw [Index.put_same] at h
      simp only [Option.some.injEq] at h
      rw [← h]; simp
    · rw [Index.put_other idx key rr k hk] at h
      exact hinv k rs h

theorem C8_index_entries_non_empty_witness :
    loadLoop stdLib Index.empty zoneHost "host.test.:A" = some [rrHostA, rrHostA2] ∧
    [rrHostA, rrHostA2] ≠ [] ∧
    ((loadLoop stdLib Index.empty zoneHost "host.test.:MX").isSome = true ↔
      ∃ x ∈ zoneHost, x.key stdLib = "host.test.:MX") ∧
    (loadLoop stdLib Index.empty zoneHost).put "host.test.:A" rrHostA "host.test.:MX" =
      loadLoop stdLib Index.empty zoneHost "host.test.:MX" :=
  ⟨by decide,
   (C8_index_entries_non_empty stdLib zoneHost).1 "host.test.:A" [rrHostA, rrHostA2]
     (by decide),
   (C8_index_entries_non_empty stdLib zoneHost).2.1 "host.test.:MX",
   ((C8_index_entries_non_empty stdLib zoneHost).2.2.2 (loadLoop stdLib Index.empty zoneHost)
     "host.test.:A" rrHostA (C8_index_entries_non_empty stdLib zoneHost).1).2.2
     "host.test.:MX" (by decide)⟩

/-- C9: `NewServer` returns an error and no server when the zone file cannot be
opened and when the parser reports an error, however many records it yielded
before; it returns a server exactly when the file opens and the parser ends
without error, and the index of that server is the one loaded from the whole
record sequence, in which every record of the sequence is stored under its
key. -/
theorem C9_new_server_all_or_nothing (lib : Lib) (os : OS) (cfg : Config) :
    (∀ e, os.Open cfg.ZoneFile = .error e →
      NewServer lib os cfg = .error ("could not load zone file: " ++ e)) ∧
    (∀ file e, os.Open cfg.ZoneFile = .ok file →
      (os.NewZoneParser file "" cfg.ZoneFile).err = some e →
      NewServer lib os cfg = .error ("could not load zone file: " ++ e)) ∧
    (∀ file, os.Open cfg.ZoneFile = .ok file →
      (os.NewZoneParser file "" cfg.ZoneFile).err = none →
      ∃ server, NewServer lib os cfg = .ok server ∧ server.config = cfg ∧
        server.records =
          loadLoop lib Index.empty (os.NewZoneParser file "" cfg.ZoneFile).pending ∧
        ∀ x ∈ (os.NewZoneParser file "" cfg.ZoneFile).pending,
          ∃ rs, server.records (x.key lib) = some rs ∧ x ∈ rs) ∧
    (∀ server, NewServer lib os cfg = .ok server →
      ∃ file, os.Open cfg.ZoneFile = .ok file ∧
        (os.NewZoneParser file "" cfg.ZoneFile).err = none) := by
  refine ⟨?_, ?_, ?_, ?_⟩
  · intro e he
    simp [NewServer, loadZoneFile, he]
  · intro file e hf he
    simp [NewServer, loadZoneFile, hf, he]
  · intro file hf he
    refine ⟨{ config := cfg, records :=
        loadLoop lib Index.empty (os.NewZoneParser file "" cfg.ZoneFile).pending },
      by simp [NewServer, loadZoneFile, hf, he], rfl, rfl, ?_⟩
    intro x hx
    have hmem : x ∈ (os.NewZoneParser file "" cfg.ZoneFile).pending.filter
        (fun y => decide (y.key lib = x.key lib)) := by
      simp [List.mem_filter, hx]
    refine ⟨_, ?_, hmem⟩
    show loadLoop lib Index.empty _ (x.key lib) = _
    rw [loadLoop_empty_apply, if_neg (List.ne_nil_of_mem hmem)]
  · intro server hs
    cases hf : os.Open cfg.ZoneFile with
    | error e => simp [NewServer, loadZoneFile, hf] at hs
    | ok file =>
      refine ⟨file, rfl, ?_⟩
      cases he : (os.NewZoneParser file "" cfg.ZoneFile).err with
      | none => rfl
      | some e => simp [NewServer, loadZoneFile, hf, he] at hs

theorem C9_new_server_all_or_nothing_witness :
    NewServer stdLib (oneFileOS "./zone.txt" { pending := zoneHost, err := some "bad ttl" })
        cfgLocal = .error "could not load zone file: bad ttl" ∧
    NewServer stdLib (oneFileOS "./other.txt" { pending := zoneHost, err := none })
        cfgLocal =
      .error "could not load zone file: open ./zone.txt: no such file or directory" ∧
    (∃ server,
      NewServer stdLib (oneFileOS "./zone.txt" { pending := zoneHost, err := none })
          cfgLocal = .ok server ∧
      server.config = cfgLocal ∧
      server.records = loadLoop stdLib Index.empty zoneHost ∧
      ∀ x ∈ zoneHost, ∃ rs, server.records (x.key stdLib) = some rs ∧ x ∈ rs) :=
  ⟨(C9_new_server_all_or_nothing stdLib
      (oneFileOS "./zone.txt" { pending := zoneHost, err := some "bad ttl" }) cfgLocal).2.1
      "./zone.txt" "bad ttl" rfl rfl,
   (C9_new_server_all_or_nothing stdLib
      (oneFileOS "./other.txt" { pending := zoneHost, err := none }) cfgLocal).1
      "open ./zone.txt: no such file or directory" rfl,
   (C9_new_server_all_or_nothing stdLib
      (oneFileOS "./zone.txt" { pending := zoneHost, err := none }) cfgLocal).2.2.1
      "./zone.txt" rfl rfl⟩

/-! ## Evaluations -/

/-- C2, evaluated on the table of the library: the types 65280 and 65281 have no
entry in `dns.TypeToString`, so a record of the first type and a question of the
second under the same owner name have the same key, and the question is
answered with the record although no upstream is configured. -/
theorem C2_unregistered_types_share_a_key :
    rrPrivate.Rrtype ≠ qPrivate.Qtype ∧
    rrPrivate.Name = qPrivate.Name ∧
    (∀ x ∈ [rrPrivate], x.Rrtype ≠ qPrivate.Qtype) ∧
    rrPrivate.key stdLib = "host.test.:" ∧
    qPrivate.key stdLib = "host.test.:" ∧
    srvPrivate.config.Forwarder = "" ∧
    (handleRequest stdLib scriptedNet srvPrivate (World.start [])
        (request [qPrivate])).1.Answer = [rrPrivate] := by
  decide

/-- C6, refuted as stated: with an upstream configured and unreachable, the only
question of the request misses the index and is handed to the forwarder, which
fails; the outcome is a forward failure, not an authoritative hit, and the reply
has the server-failure status with the authoritative flag still true. -/
theorem C6_forward_failure_keeps_authoritative :
    Spec.resolveAll stdLib scriptedNet (srvHost cfgForward) (World.start [])
        (request [qHostAAAA]).Questions = [Outcome.ForwardFailure "i/o timeout"] ∧
    (handleRequest stdLib scriptedNet (srvHost cfgForward) (World.start [])
        (request [qHostAAAA])).2.sent = [(forwardMsg 0 qHostAAAA, "8.8.8.8:53")] ∧
    (handleRequest stdLib scriptedNet (srvHost cfgForward) (World.start [])
        (request [qHostAAAA])).1.Rcode = RcodeServerFailure ∧
    (handleRequest stdLib scriptedNet (srvHost cfgForward) (World.start [])
        (request [qHostAAAA])).1.Authoritative = true := by
  decide

end SimpleDNS
